import Mathlib

/-!
Verification of the PunchPi attendance system against its specification.

The repository contains several prototype implementations of the same
attendance "transition engine".  Each namespace below is a shallow embedding
of one variant, translated from the Go source:

* `MainSrv`  — the transactional, presence-flag based engine
  (`handleRFIDScan` in src/main.go, lines 422-534).
* `Part004`  — the reader-stream variant (`processCardScan` in
  src/unnamed/part_004), whose clock-out lookup orders open records by
  `clock_in DESC` and stores `total_hours` rounded to two decimals.
* `Part003`  — the variant in src/unnamed/part_003, whose employee lookup
  runs before the transaction begins.
* `Api`      — the 12-hour-heuristic variant (`handleRFIDScan` in
  src/server/api.go).
* `Db`       — the variant in src/server/database.go whose INSERT omits the
  NOT NULL column `rfid_uid_normalized`.

SQLite rows are modelled as lists (list order = rowid order); timestamps are
integers (seconds); SQL `REAL` durations are exact rationals, with SQLite's
`ROUND` modelled explicitly where the source uses it.
-/

namespace MainSrv

/-- Employee row of the `employees` table created by `initDB` in src/main.go
(`id INTEGER PRIMARY KEY AUTOINCREMENT, name, card_uid UNIQUE, is_present`). -/
structure Employee where
  id : Nat
  name : String
  cardUid : String
  isPresent : Bool
deriving Repr, DecidableEq

/-- Row of the `time_records` table of src/main.go
(`id, employee_id, clock_in, clock_out, total_hours REAL, is_completed`).
`clockOut = none` models SQL NULL; `totalHours` is the REAL column as an
exact rational number of hours. -/
structure TimeRec where
  id : Nat
  employeeId : Nat
  clockIn : Int
  clockOut : Option Int
  totalHours : Option Rat
  isCompleted : Bool
deriving Repr, DecidableEq

/-- The SQLite database of src/main.go: the two tables plus the AUTOINCREMENT
counter for `time_records`. -/
structure Store where
  employees : List Employee
  records : List TimeRec
  nextRecordId : Nat
deriving Repr, DecidableEq

/-- Event kind reported in the JSON response of `handleRFIDScan`
(src/main.go line 528: `map[bool]string{true: "clock-out", false: "clock-in"}`). -/
inductive EventKind where
  | clockIn
  | clockOut
deriving Repr, DecidableEq

/-- The success response of `handleRFIDScan` (src/main.go lines 526-530). -/
structure ScanResult where
  employeeName : String
  action : EventKind
  timestamp : Int
deriving Repr, DecidableEq

/-- The distinct failure responses of `handleRFIDScan` in src/main.go:
`dbError` covers "Database error" (begin/lookup/commit failures),
`unknownBadge` is the distinct 401 "Unregistered card" response, and the
remaining constructors are the per-step 500 responses. -/
inductive ScanError where
  | dbError
  | unknownBadge
  | clockInFailed
  | recordLookupFailed
  | clockOutFailed
  | statusUpdateFailed
deriving Repr, DecidableEq

/-- Injected-failure schedule for the fallible SQL statements executed by
`handleRFIDScan`: each flag makes the corresponding `tx.Exec` / `tx.QueryRow`
/ `db.Begin` / `tx.Commit` call return an error, modelling transient store
failures. -/
structure FailSpec where
  beginFail : Bool
  lookupFail : Bool
  insertFail : Bool
  openLookupFail : Bool
  closeUpdateFail : Bool
  presentUpdateFail : Bool
  commitFail : Bool
deriving Repr, DecidableEq

/-- The failure-free schedule (every SQL statement succeeds). -/
def noFail : FailSpec := ⟨false, false, false, false, false, false, false⟩

/-- `SELECT id, name, is_present FROM employees WHERE card_uid = ?`
(src/main.go lines 445-448); `QueryRow` returns the first matching row. -/
def findEmployee (st : Store) (uid : String) : Option Employee :=
  st.employees.find? (fun e => e.cardUid == uid)

/-- `SELECT id, clock_in FROM time_records WHERE employee_id = ? AND
is_completed = FALSE` (src/main.go lines 481-484); no ORDER BY, so `QueryRow`
takes the first row in table order. -/
def findOpenRecord (st : Store) (eid : Nat) : Option TimeRec :=
  st.records.find? (fun r => r.employeeId == eid && !r.isCompleted)

/-- `UPDATE employees SET is_present = ? WHERE id = ?`
(src/main.go lines 473-476 and 506-509). -/
def setPresent (st : Store) (eid : Nat) (b : Bool) : Store :=
  { st with employees :=
      st.employees.map (fun e => if e.id == eid then { e with isPresent := b } else e) }

/-- The fresh row created by the clock-in INSERT: next rowid, NULL
`clock_out` and `total_hours`, schema default `is_completed = FALSE`. -/
def newRecord (st : Store) (eid : Nat) (t : Int) : TimeRec :=
  { id := st.nextRecordId, employeeId := eid, clockIn := t,
    clockOut := none, totalHours := none, isCompleted := false }

/-- `INSERT INTO time_records (employee_id, clock_in) VALUES (?, ?)`
(src/main.go lines 463-465). -/
def insertOpenRecord (st : Store) (eid : Nat) (t : Int) : Store :=
  { st with
    records := st.records ++ [newRecord st eid t],
    nextRecordId := st.nextRecordId + 1 }

/-- Per-row effect of the closing UPDATE: if the row id matches, set
`clock_out`, store `hoursWorked = currentTime.Sub(clockIn).Hours()` (kept
exact as a rational) and mark the row completed; otherwise leave the row. -/
def closeUpd (rid : Nat) (t : Int) (r : TimeRec) : TimeRec :=
  if r.id == rid then
    { r with clockOut := some t,
             totalHours := some (((t - r.clockIn : Int) : Rat) / 3600),
             isCompleted := true }
  else r

/-- `UPDATE time_records SET clock_out = ?, total_hours = ?, is_completed =
TRUE WHERE id = ?` (src/main.go lines 492-498). -/
def closeRecordById (st : Store) (rid : Nat) (t : Int) : Store :=
  { st with records := st.records.map (closeUpd rid t) }

/-- The write set of the clock-in branch (src/main.go lines 461-476):
insert an open record, then set the presence flag. -/
def clockInTx (st : Store) (emp : Employee) (t : Int) : Store :=
  setPresent (insertOpenRecord st emp.id t) emp.id true

/-- The write set of the clock-out branch (src/main.go lines 477-509):
close the found record, then clear the presence flag. -/
def clockOutTx (st : Store) (rid : Nat) (emp : Employee) (t : Int) : Store :=
  setPresent (closeRecordById st rid t) emp.id false

/-- `handleRFIDScan` of src/main.go lines 422-534.  The whole body runs inside
one transaction (`db.Begin` ... `tx.Commit`, with `defer tx.Rollback()`), so
every error path returns the caller's response together with the unchanged
store, and only the final commit publishes the new store. -/
def handleRFIDScan (f : FailSpec) (st : Store) (uid : String) (now : Int) :
    Except ScanError ScanResult × Store :=
  if f.beginFail then (.error .dbError, st)
  else if f.lookupFail then (.error .dbError, st)
  else
    match findEmployee st uid with
    | none => (.error .unknownBadge, st)
    | some emp =>
      if !emp.isPresent then
        if f.insertFail then (.error .clockInFailed, st)
        else if f.presentUpdateFail then (.error .statusUpdateFailed, st)
        else if f.commitFail then (.error .dbError, st)
        else (.ok { employeeName := emp.name, action := .clockIn, timestamp := now },
              clockInTx st emp now)
      else
        if f.openLookupFail then (.error .recordLookupFailed, st)
        else
          match findOpenRecord st emp.id with
          | none => (.error .recordLookupFailed, st)
          | some r =>
            if f.closeUpdateFail then (.error .clockOutFailed, st)
            else if f.presentUpdateFail then (.error .statusUpdateFailed, st)
            else if f.commitFail then (.error .dbError, st)
            else (.ok { employeeName := emp.name, action := .clockOut, timestamp := now },
                  clockOutTx st r.id emp now)

/-- Predicate for an open record of employee `eid` in the sense of the spec:
a row whose `clock_out` is absent. -/
def openP (eid : Nat) : TimeRec → Bool :=
  fun r => r.employeeId == eid && r.clockOut.isNone

/-- The records of `st` that are open for employee `eid` in the sense of the
spec: rows whose `clock_out` is absent. -/
def openRecs (st : Store) (eid : Nat) : List TimeRec :=
  st.records.filter (openP eid)

/-- Structural well-formedness guaranteed by the SQLite schema: AUTOINCREMENT
ids are pairwise distinct and below the counter, and, as maintained by the
engine's writes, a record's `clock_out` is absent exactly while its
`is_completed` flag is still FALSE. -/
def WF (st : Store) : Prop :=
  st.employees.Pairwise (fun a b => a.id ≠ b.id) ∧
  st.records.Pairwise (fun a b => a.id ≠ b.id) ∧
  (∀ r ∈ st.records, r.id < st.nextRecordId) ∧
  (∀ r ∈ st.records, (r.clockOut.isNone ↔ r.isCompleted = false))

/-- The open-record invariant of the spec: every employee has exactly one open
record when present and none when absent. -/
def Inv (st : Store) : Prop :=
  ∀ e ∈ st.employees, (openRecs st e.id).length = (if e.isPresent then 1 else 0)

/-- Run a sequence of scans, each with its own injected-failure schedule,
badge uid and timestamp. -/
def runScans (st : Store) : List (FailSpec × String × Int) → Store
  | [] => st
  | s :: rest => runScans (handleRFIDScan s.1 st s.2.1 s.2.2).2 rest

end MainSrv

namespace MainSrv

/-- Results of a whole sequence of failure-free scans of one badge, paired
with the final store (`handleRFIDScan` iterated on its own output). -/
def scanTrace (st : Store) (uid : String) : List Int → List (Except ScanError ScanResult) × Store
  | [] => ([], st)
  | t :: ts =>
    ((handleRFIDScan noFail st uid t).1 ::
        (scanTrace (handleRFIDScan noFail st uid t).2 uid ts).1,
      (scanTrace (handleRFIDScan noFail st uid t).2 uid ts).2)

/-- Event kind of each response in a trace (`none` for a failed scan). -/
def kindsOf (rs : List (Except ScanError ScanResult)) : List (Option EventKind) :=
  rs.map (fun r => match r with
    | .ok s => some s.action
    | .error _ => none)

/-- The strictly alternating event-kind sequence of length `n` for an
employee whose current presence flag is `b`. -/
def altKinds : Nat → Bool → List (Option EventKind)
  | 0, _ => []
  | n + 1, b => (if b then some EventKind.clockOut else some EventKind.clockIn) :: altKinds n (!b)

end MainSrv

namespace MainSrv

/-- A concrete enrolled store: two employees, both absent, empty ledger. -/
def egStore : Store :=
  { employees := [{ id := 1, name := "Alice", cardUid := "AB12", isPresent := false },
                  { id := 2, name := "Bob", cardUid := "CD34", isPresent := false }],
    records := [], nextRecordId := 1 }

/-- A concrete scan sequence: alternating known badges, one unknown badge,
and one scan whose commit fails. -/
def egScans : List (FailSpec × String × Int) :=
  [(noFail, "AB12", 100), (noFail, "CD34", 200), (noFail, "AB12", 300),
   (noFail, "ZZ99", 400), (⟨false, false, false, false, false, false, true⟩, "CD34", 500)]

/-- A present employee (Alice clocked in at 09:00:00 = second 32400). -/
def egOpenRec : TimeRec :=
  { id := 7, employeeId := 1, clockIn := 32400, clockOut := none,
    totalHours := none, isCompleted := false }

/-- A store in which Alice is present with the single open record
`egOpenRec`. -/
def egStoreOut : Store :=
  { employees := [{ id := 1, name := "Alice", cardUid := "AB12", isPresent := true }],
    records := [egOpenRec], nextRecordId := 8 }

/-- A corrupted store in which employee 1 already has an open record although
the presence flag says absent (the situation the spec's defensive check in
`openRecord` is supposed to reject). -/
def corruptStore : Store :=
  { employees := [{ id := 1, name := "Bob", cardUid := "AB", isPresent := false }],
    records := [{ id := 1, employeeId := 1, clockIn := 0, clockOut := none,
                  totalHours := none, isCompleted := false }],
    nextRecordId := 2 }

end MainSrv

namespace Part004

/-- Employee row of the `employees` table of src/unnamed/part_004
(`id, name, card_uid UNIQUE, is_present, last_clock_in, last_clock_out`). -/
structure Employee where
  id : Nat
  name : String
  cardUid : String
  isPresent : Bool
  lastClockIn : Option Int
  lastClockOut : Option Int
deriving Repr, DecidableEq

/-- Row of the `time_records` table of part_004
(`id, employee_id, clock_in, clock_out, total_hours REAL`; no
`is_completed` column in this schema). -/
structure TimeRec where
  id : Nat
  employeeId : Nat
  clockIn : Int
  clockOut : Option Int
  totalHours : Option Rat
deriving Repr, DecidableEq

/-- The SQLite database of part_004. -/
structure Store where
  employees : List Employee
  records : List TimeRec
  nextRecordId : Nat
deriving Repr, DecidableEq

/-- Failure modes of `processCardScan` relevant to the model: unknown card
uid (ErrNoRows on the employee lookup) and no open record found (ErrNoRows
on the clock-out lookup, "record lookup error"). -/
inductive ScanErr where
  | unknownCard
  | noOpenRecord
deriving Repr, DecidableEq

/-- The action recorded by a scan. -/
inductive ScanAction where
  | clockIn
  | clockOut
deriving Repr, DecidableEq

/-- SQLite `ROUND(x, 2)`: the value rounded to two decimal places.  SQLite
rounds halves away from zero; the arguments rounded in this model are
durations, and for nonnegative values this agrees with `round` (half up),
which is used here. -/
def sqliteRound2 (q : Rat) : Rat := ((round (q * 100) : Int) : Rat) / 100

/-- `SELECT id, name, card_uid, is_present, ... FROM employees WHERE
card_uid = ?` (part_004 lines 100-106). -/
def lookupEmployee (st : Store) (uid : String) : Option Employee :=
  st.employees.find? (fun e => e.cardUid == uid)

/-- `SELECT id, clock_in FROM time_records WHERE employee_id = ? AND
clock_out IS NULL ORDER BY clock_in DESC LIMIT 1` (part_004 lines 169-173):
the open record with the greatest `clock_in`. -/
def findOpenDesc (eid : Nat) : List TimeRec → Option TimeRec
  | [] => none
  | r :: rs =>
    if r.employeeId == eid && r.clockOut.isNone then
      match findOpenDesc eid rs with
      | none => some r
      | some b => if b.clockIn > r.clockIn then some b else some r
    else findOpenDesc eid rs

/-- Row update of the clock-out UPDATE (part_004 lines 182-186): set
`clock_out = ?` and `total_hours = ROUND(CAST((JULIANDAY(?) -
JULIANDAY(clock_in)) * 24 AS REAL), 2)`; the Julian-day difference times 24
is the duration in hours, here exact before the ROUND. -/
def closeUpd4 (rid : Nat) (t : Int) (r : TimeRec) : TimeRec :=
  if r.id == rid then
    { r with clockOut := some t,
             totalHours := some (sqliteRound2 (((t - r.clockIn : Int) : Rat) / 3600)) }
  else r

/-- The clock-out ledger operation of part_004 (lines 163-199) — the spec
calls it `closeRecord`: find the employee's open record ordered by
`clock_in` descending (most recent first), set its `clock_out` and
`total_hours`; on ErrNoRows the handler returns the lookup error and the
deferred rollback leaves the store unchanged. -/
def closeRecord (st : Store) (eid : Nat) (now : Int) : Except ScanErr Nat × Store :=
  match findOpenDesc eid st.records with
  | none => (.error .noOpenRecord, st)
  | some r => (.ok r.id, { st with records := st.records.map (closeUpd4 r.id now) })

/-- `UPDATE employees SET is_present = TRUE, last_clock_in = ? WHERE id = ?`
(part_004 lines 142-145). -/
def setPresentIn (st : Store) (eid : Nat) (t : Int) : Store :=
  { st with employees := st.employees.map (fun e =>
      if e.id == eid then { e with isPresent := true, lastClockIn := some t } else e) }

/-- `UPDATE employees SET is_present = FALSE, last_clock_out = ? WHERE id = ?`
(part_004 lines 192-195). -/
def setPresentOut (st : Store) (eid : Nat) (t : Int) : Store :=
  { st with employees := st.employees.map (fun e =>
      if e.id == eid then { e with isPresent := false, lastClockOut := some t } else e) }

/-- `processCardScan` of part_004 lines 94-223: look up the employee by card
uid (before the transaction), then clock in (INSERT an open record, set the
flag) when absent, or clock out (`closeRecord`, clear the flag) when
present.  The returned employee is the pre-scan snapshot, as in the Go
code. -/
def processCardScan (st : Store) (uid : String) (now : Int) :
    Except ScanErr (ScanAction × Employee) × Store :=
  match lookupEmployee st uid with
  | none => (.error .unknownCard, st)
  | some emp =>
    if !emp.isPresent then
      let st1 : Store :=
        { st with
          records := st.records ++
            [{ id := st.nextRecordId, employeeId := emp.id, clockIn := now,
               clockOut := none, totalHours := none }],
          nextRecordId := st.nextRecordId + 1 }
      (.ok (.clockIn, emp), setPresentIn st1 emp.id now)
    else
      match closeRecord st emp.id now with
      | (.error e, st1) => (.error e, st1)
      | (.ok _, st1) => (.ok (.clockOut, emp), setPresentOut st1 emp.id now)

/-- A concrete part_004 store: one present employee with a single open
record opened at time 0. -/
def egStore4 : Store :=
  { employees := [{ id := 1, name := "Eve", cardUid := "EE", isPresent := true,
                    lastClockIn := some 0, lastClockOut := none }],
    records := [{ id := 1, employeeId := 1, clockIn := 0, clockOut := none,
                  totalHours := none }],
    nextRecordId := 2 }

/-- The single (open) record of `egStore4`. -/
def egRec4 : TimeRec :=
  { id := 1, employeeId := 1, clockIn := 0, clockOut := none, totalHours := none }

end Part004

namespace Part003

/-- Employee row of the `employees` table of src/unnamed/part_003. -/
structure Employee where
  id : Nat
  name : String
  cardUid : String
  isPresent : Bool
deriving Repr, DecidableEq

/-- Row of the `time_records` table of part_003
(`id, employee_id, clock_in, clock_out, is_completed`; no `total_hours`
column in this schema). -/
structure TimeRec where
  id : Nat
  employeeId : Nat
  clockIn : Int
  clockOut : Option Int
  isCompleted : Bool
deriving Repr, DecidableEq

/-- The SQLite database of part_003. -/
structure Store where
  employees : List Employee
  records : List TimeRec
  nextRecordId : Nat
deriving Repr, DecidableEq

/-- Failure modes of the part_003 handler relevant to the model. -/
inductive ScanErr where
  | unknownCard
  | noOpenRecord
deriving Repr, DecidableEq

/-- The action reported in the JSON response of part_003. -/
inductive ScanAction where
  | clockIn
  | clockOut
deriving Repr, DecidableEq

/-- The employee lookup of part_003 lines 120-123: `SELECT id, name,
is_present FROM employees WHERE card_uid = ?`.  In the source this query
runs on the shared db handle BEFORE `db.Begin()` (line 135), so it is a
separate step from the transaction. -/
def lookupEmployee (st : Store) (uid : String) : Option Employee :=
  st.employees.find? (fun e => e.cardUid == uid)

/-- Open-record lookup of part_003 lines 166-169: `SELECT id FROM
time_records WHERE employee_id = ? AND is_completed = FALSE ORDER BY
clock_in DESC LIMIT 1`. -/
def findOpenDesc3 (eid : Nat) : List TimeRec → Option TimeRec
  | [] => none
  | r :: rs =>
    if r.employeeId == eid && !r.isCompleted then
      match findOpenDesc3 eid rs with
      | none => some r
      | some b => if b.clockIn > r.clockIn then some b else some r
    else findOpenDesc3 eid rs

/-- The transaction body of `handleRFIDScan` in part_003 (lines 134-196),
applied to the current store using the employee snapshot `emp` obtained in
the earlier lookup phase: INSERT an open record and set the flag when the
snapshot says absent; close the most recent open record and clear the flag
when it says present. -/
def scanTx (st : Store) (emp : Employee) (now : Int) : Except ScanErr ScanAction × Store :=
  if !emp.isPresent then
    (.ok .clockIn,
      { employees := st.employees.map (fun e =>
          if e.id == emp.id then { e with isPresent := true } else e),
        records := st.records ++
          [{ id := st.nextRecordId, employeeId := emp.id, clockIn := now,
             clockOut := none, isCompleted := false }],
        nextRecordId := st.nextRecordId + 1 })
  else
    match findOpenDesc3 emp.id st.records with
    | none => (.error .noOpenRecord, st)
    | some r =>
      (.ok .clockOut,
        { employees := st.employees.map (fun e =>
            if e.id == emp.id then { e with isPresent := false } else e),
          records := st.records.map (fun r2 =>
            if r2.id == r.id then { r2 with clockOut := some now, isCompleted := true }
            else r2),
          nextRecordId := st.nextRecordId })

/-- `handleRFIDScan` of part_003 when run without interference: the lookup
phase immediately followed by the transaction phase. -/
def handleRFIDScan (st : Store) (uid : String) (now : Int) :
    Except ScanErr ScanAction × Store :=
  match lookupEmployee st uid with
  | none => (.error .unknownCard, st)
  | some emp => scanTx st emp now

/-- Two scans of the same badge racing as the part_003 code structure
permits: both lookup phases read the initial store (neither transaction has
begun), then the two transaction phases execute in order.  Each transaction
is generously treated as atomic; only the lookup-outside-the-transaction
split that is explicit in the source is modelled. -/
def racedScans (st : Store) (uid : String) (t1 t2 : Int) :
    (Except ScanErr ScanAction × Except ScanErr ScanAction) × Store :=
  match lookupEmployee st uid, lookupEmployee st uid with
  | some e1, some e2 =>
    (((scanTx st e1 t1).1, (scanTx (scanTx st e1 t1).2 e2 t2).1),
      (scanTx (scanTx st e1 t1).2 e2 t2).2)
  | _, _ => ((.error .unknownCard, .error .unknownCard), st)

/-- Open records (clock_out absent) of employee `eid`. -/
def openRecs3 (st : Store) (eid : Nat) : List TimeRec :=
  st.records.filter (fun r => r.employeeId == eid && r.clockOut.isNone)

/-- A concrete part_003 store: one absent employee, empty ledger. -/
def egStore3 : Store :=
  { employees := [{ id := 1, name := "Bob", cardUid := "B1", isPresent := false }],
    records := [], nextRecordId := 1 }

end Part003

namespace Api

/-- User row of the `users` table (src/server/database.go lines 9-14):
id, name, original and normalized RFID uid. -/
structure User where
  id : Nat
  name : String
  rfidOriginal : String
  rfidNormalized : String
deriving Repr, DecidableEq

/-- Row of the `clock_in_out` table as inserted by src/server/api.go. -/
structure ClockRow where
  id : Nat
  rfidOriginal : String
  rfidNormalized : String
  userId : Nat
  timestamp : Int
deriving Repr, DecidableEq

/-- The SQLite database seen by the api.go handler. -/
structure Store where
  users : List User
  rows : List ClockRow
  nextRowId : Nat
deriving Repr, DecidableEq

/-- Failure responses of the api.go handler relevant to the model:
404 "Unknown RFID card" and 500 "Failed to record scan". -/
inductive ApiError where
  | unknownCard
  | recordFailed
deriving Repr, DecidableEq

/-- `normalizeRFIDInput` of src/server/api.go lines 18-22: the original
string plus the normalized form
`strings.ToUpper(strings.ReplaceAll(uid, " ", ""))`, modelled character by
character (drop every space, then uppercase each character). -/
def normalizeRFIDInput (uid : String) : String × String :=
  (uid, String.mk ((uid.data.filter (fun c => c != ' ')).map Char.toUpper))

/-- `SELECT id, name FROM users WHERE rfid_uid_original = ? OR
rfid_uid_normalized = ?` (api.go lines 42-44). -/
def findUser (st : Store) (uid : String) : Option User :=
  st.users.find? (fun u =>
    u.rfidOriginal == (normalizeRFIDInput uid).1 ||
    u.rfidNormalized == (normalizeRFIDInput uid).2)

/-- `SELECT timestamp FROM clock_in_out WHERE user_id = ? ORDER BY timestamp
DESC LIMIT 1` (api.go lines 56-58): the greatest timestamp among the user's
rows, if any. -/
def lastTimestamp (u : Nat) : List ClockRow → Option Int
  | [] => none
  | r :: rs =>
    if r.userId == u then
      match lastTimestamp u rs with
      | none => some r.timestamp
      | some m => some (max r.timestamp m)
    else lastTimestamp u rs

/-- Event-type decision of api.go lines 60-63: start from "Clock-In" and
switch to "Clock-Out" when the last-timestamp query returned a row and
`time.Since(lastTimestamp) < 12*time.Hour`. -/
def eventType (st : Store) (u : User) (now : Int) : String :=
  match lastTimestamp u.id st.rows with
  | some t => if now - t < 12 * 3600 then "Clock-Out" else "Clock-In"
  | none => "Clock-In"

/-- `handleRFIDScan` of src/server/api.go lines 24-77: resolve the user (404
before any write when unknown), decide the event type from elapsed time,
INSERT the scan row (this INSERT supplies every NOT NULL column, so it
succeeds) and answer "<event>: <name>". -/
def handleRFIDScan (st : Store) (uid : String) (now : Int) :
    Except ApiError String × Store :=
  match findUser st uid with
  | none => (.error .unknownCard, st)
  | some u =>
    (.ok (eventType st u now ++ ": " ++ u.name),
      { st with
        rows := st.rows ++
          [{ id := st.nextRowId, rfidOriginal := (normalizeRFIDInput uid).1,
             rfidNormalized := (normalizeRFIDInput uid).2, userId := u.id,
             timestamp := now }],
        nextRowId := st.nextRowId + 1 })

/-- A concrete api.go store: one user with one scan row at time 0. -/
def egStoreApi : Store :=
  { users := [{ id := 1, name := "Sam", rfidOriginal := "S1", rfidNormalized := "S1" }],
    rows := [{ id := 1, rfidOriginal := "S1", rfidNormalized := "S1", userId := 1,
               timestamp := 0 }],
    nextRowId := 2 }

end Api

namespace Db

/-- User row of the `users` table of src/server/database.go. -/
structure User where
  id : Nat
  name : String
  rfidOriginal : String
  rfidNormalized : String
deriving Repr, DecidableEq

/-- Row of the `clock_in_out` table of database.go. -/
structure ClockRow where
  id : Nat
  rfidOriginal : String
  rfidNormalized : String
  userId : Nat
  timestamp : Int
deriving Repr, DecidableEq

/-- A column of a SQLite table: its name, whether it is declared NOT NULL,
and whether a value is supplied automatically when the INSERT omits it
(a DEFAULT clause or the INTEGER PRIMARY KEY rowid). -/
structure Column where
  name : String
  notNull : Bool
  hasDefault : Bool
deriving Repr, DecidableEq

/-- The `clock_in_out` schema from `createTables` (database.go lines 20-27):
`id INTEGER PRIMARY KEY AUTOINCREMENT` (auto-supplied),
`rfid_uid_original TEXT NOT NULL`, `rfid_uid_normalized TEXT NOT NULL`
(neither has a default), `user_id INTEGER` (nullable),
`timestamp DATETIME DEFAULT CURRENT_TIMESTAMP`. -/
def clockInOutColumns : List Column :=
  [{ name := "id", notNull := false, hasDefault := true },
   { name := "rfid_uid_original", notNull := true, hasDefault := false },
   { name := "rfid_uid_normalized", notNull := true, hasDefault := false },
   { name := "user_id", notNull := false, hasDefault := false },
   { name := "timestamp", notNull := false, hasDefault := true }]

/-- The columns supplied by the handler's INSERT (database.go lines 89-91):
`INSERT INTO clock_in_out (rfid_uid_original, user_id, timestamp) VALUES
(?, ?, datetime('now'))` — `rfid_uid_normalized` is omitted. -/
def insertedColumns : List String := ["rfid_uid_original", "user_id", "timestamp"]

/-- SQLite accepts an INSERT exactly when every NOT NULL column is either
supplied by the statement or has an automatic value; omitting a NOT NULL
column without a default makes the statement fail with a NOT NULL
constraint violation. -/
def insertAllowed (cols : List Column) (provided : List String) : Bool :=
  cols.all (fun c => !c.notNull || c.hasDefault || provided.contains c.name)

/-- The SQLite database seen by the database.go handler. -/
structure Store where
  users : List User
  rows : List ClockRow
  nextRowId : Nat
deriving Repr, DecidableEq

/-- Failure responses of the database.go handler: 404 "Unknown RFID card"
and 500 "Failed to record scan". -/
inductive DbError where
  | unknownCard
  | recordFailed
deriving Repr, DecidableEq

/-- `SELECT id, name FROM users WHERE rfid_uid_original = ?`
(database.go lines 66-68): this variant matches the original uid only. -/
def findUserByOriginal (st : Store) (uid : String) : Option User :=
  st.users.find? (fun u => u.rfidOriginal == uid)

/-- Last-timestamp query of database.go lines 80-82 (same as api.go). -/
def lastTimestamp (u : Nat) : List ClockRow → Option Int
  | [] => none
  | r :: rs =>
    if r.userId == u then
      match lastTimestamp u rs with
      | none => some r.timestamp
      | some m => some (max r.timestamp m)
    else lastTimestamp u rs

/-- Event-type decision of database.go lines 84-87 (same 12-hour rule). -/
def eventType (st : Store) (u : User) (now : Int) : String :=
  match lastTimestamp u.id st.rows with
  | some t => if now - t < 12 * 3600 then "Clock-Out" else "Clock-In"
  | none => "Clock-In"

/-- `handleRFIDScan` of src/server/database.go lines 47-101: resolve the
user by original uid, compute the event type, then run the INSERT that
omits the NOT NULL column `rfid_uid_normalized`; SQLite rejects it, so the
handler answers "Failed to record scan". -/
def handleRFIDScan (st : Store) (uid : String) (now : Int) :
    Except DbError String × Store :=
  match findUserByOriginal st uid with
  | none => (.error .unknownCard, st)
  | some u =>
    if insertAllowed clockInOutColumns insertedColumns then
      (.ok (eventType st u now ++ ": " ++ u.name),
        { st with
          rows := st.rows ++
            [{ id := st.nextRowId, rfidOriginal := uid, rfidNormalized := "",
               userId := u.id, timestamp := now }],
          nextRowId := st.nextRowId + 1 })
    else (.error .recordFailed, st)

/-- A concrete database.go store: one registered user, no scan rows. -/
def egStoreDb : Store :=
  { users := [{ id := 1, name := "Kim", rfidOriginal := "K1", rfidNormalized := "K1" }],
    rows := [], nextRowId := 1 }

end Db

section ListHelpers

/-- In a list whose elements have pairwise distinct keys, the key determines
the element. -/
theorem mem_eq_of_pairwise_key {α : Type _} {κ : Type _} (key : α → κ) :
    ∀ {l : List α}, l.Pairwise (fun a b => key a ≠ key b) →
      ∀ a b, a ∈ l → b ∈ l → key a = key b → a = b := by
  intro l
  induction l with
  | nil => intro _ a b ha _ _; cases ha
  | cons x xs ih =>
    intro hp a b ha hb hk
    rcases List.pairwise_cons.mp hp with ⟨hx, hxs⟩
    rcases List.mem_cons.mp ha with rfl | ha2
    · rcases List.mem_cons.mp hb with rfl | hb2
      · rfl
      · exact absurd hk (hx _ hb2)
    · rcases List.mem_cons.mp hb with rfl | hb2
      · exact absurd hk.symm (hx _ ha2)
      · exact ih hxs a b ha2 hb2 hk

/-- In a list whose elements have pairwise distinct keys, every member occurs
exactly once. -/
theorem count_eq_one_of_pairwise_key {α : Type _} {κ : Type _} [DecidableEq α] (key : α → κ) :
    ∀ {l : List α}, l.Pairwise (fun a b => key a ≠ key b) →
      ∀ a, a ∈ l → l.count a = 1 := by
  intro l
  induction l with
  | nil => intro _ a ha; cases ha
  | cons x xs ih =>
    intro hp a ha
    rcases List.pairwise_cons.mp hp with ⟨hx, hxs⟩
    rcases List.mem_cons.mp ha with rfl | ha2
    · have hnot : a ∉ xs := fun hmem => hx a hmem rfl
      rw [List.count_cons, List.count_eq_zero.mpr hnot]
      simp
    · have hne : (x == a) = false := by
        refine beq_eq_false_iff_ne.mpr ?_
        rintro rfl
        exact hx _ ha2 rfl
      rw [List.count_cons, ih hxs a ha2, hne]
      simp

/-- Counting with a pointwise-equal predicate. -/
theorem countP_congr_mem {α : Type _} (p q : α → Bool) :
    ∀ (l : List α), (∀ a ∈ l, p a = q a) → l.countP p = l.countP q := by
  intro l
  induction l with
  | nil => intro _; simp
  | cons x xs ih =>
    intro h
    rw [List.countP_cons, List.countP_cons, h x (by simp),
      ih (fun a ha => h a (by simp [ha]))]

/-- Counting after updating a unique occurrence: mapping `g` over a list in
which `g` fixes everything except the single occurrence of `r0` changes the
count exactly by the difference at `r0`. -/
theorem countP_map_update {α : Type _} [DecidableEq α] (q : α → Bool) (g : α → α) (r0 : α) :
    ∀ (l : List α), (∀ r ∈ l, r ≠ r0 → g r = r) → l.count r0 = 1 →
      (l.map g).countP q + (if q r0 then 1 else 0) =
        l.countP q + (if q (g r0) then 1 else 0) := by
  intro l
  induction l with
  | nil => intro _ h1; simp at h1
  | cons x xs ih =>
    intro hid hcount
    rw [List.count_cons] at hcount
    by_cases hx : x = r0
    · subst hx
      have h0 : xs.count x = 0 := by
        simp at hcount
        omega
      have hnm : x ∉ xs := List.count_eq_zero.mp h0
      have hfix : ∀ r ∈ xs, g r = id r := by
        intro r hr
        refine hid r (List.mem_cons_of_mem _ hr) ?_
        rintro rfl
        exact hnm hr
      have hmap : xs.map g = xs := (List.map_congr_left hfix).trans (List.map_id xs)
      cases hq1 : q x <;> cases hq2 : q (g x) <;>
        simp [List.countP_cons, hmap, hq1, hq2]
    · have hgx : g x = x := hid x (List.mem_cons_self x xs) hx
      have hxc : (x == r0) = false := beq_eq_false_iff_ne.mpr hx
      rw [hxc] at hcount
      simp at hcount
      have hih := ih (fun r hr hne => hid r (List.mem_cons_of_mem _ hr) hne) hcount
      cases hq1 : q r0 <;> cases hq2 : q (g r0) <;> cases hq3 : q x <;>
        simp [hq1, hq2, hq3] at hih ⊢ <;>
        simp [List.countP_cons, hgx, hq3, hih]

end ListHelpers

namespace MainSrv

/-- The presence update does not touch the ledger. -/
theorem setPresent_records (st : Store) (eid : Nat) (b : Bool) :
    (setPresent st eid b).records = st.records := rfl

/-- Inserting a record does not touch the employee table. -/
theorem insertOpenRecord_employees (st : Store) (eid : Nat) (t : Int) :
    (insertOpenRecord st eid t).employees = st.employees := rfl

/-- Closing a record does not touch the employee table. -/
theorem closeRecordById_employees (st : Store) (rid : Nat) (t : Int) :
    (closeRecordById st rid t).employees = st.employees := rfl

/-- Number of open records expressed as a `countP` over the ledger. -/
theorem openRecs_length (st : Store) (eid : Nat) :
    (openRecs st eid).length = st.records.countP (openP eid) :=
  (List.countP_eq_length_filter _ _).symm

/-- The per-employee update of `setPresent` preserves the employee id. -/
theorem setPresent_upd_id (eid : Nat) (b : Bool) (e : Employee) :
    (if e.id == eid then { e with isPresent := b } else e).id = e.id := by
  split <;> rfl

/-- The per-employee update of `setPresent` preserves the badge uid. -/
theorem setPresent_upd_cardUid (eid : Nat) (b : Bool) (e : Employee) :
    (if e.id == eid then { e with isPresent := b } else e).cardUid = e.cardUid := by
  split <;> rfl

/-- Members of the employee table after a presence update. -/
theorem mem_setPresent (st : Store) (eid : Nat) (b : Bool) (e' : Employee) :
    e' ∈ (setPresent st eid b).employees ↔
      ∃ e ∈ st.employees, e' = (if e.id == eid then { e with isPresent := b } else e) := by
  simp only [setPresent, List.mem_map]
  constructor
  · rintro ⟨e, he, rfl⟩
    exact ⟨e, he, rfl⟩
  · rintro ⟨e, he, rfl⟩
    exact ⟨e, he, rfl⟩

/-- Effect of the clock-in INSERT on the open-record count. -/
theorem countP_open_insert (st : Store) (eid : Nat) (t : Int) (eid' : Nat) :
    (insertOpenRecord st eid t).records.countP (openP eid') =
      st.records.countP (openP eid') + (if eid' = eid then 1 else 0) := by
  rw [insertOpenRecord, List.countP_append]
  have hsing : List.countP (openP eid') [newRecord st eid t] =
      if eid' = eid then 1 else 0 := by
    by_cases h : eid' = eid
    · subst h; simp [openP, newRecord, List.countP_cons]
    · simp [openP, newRecord, List.countP_cons, h, Ne.symm h]
  rw [hsing]

/-- Under well-formedness, counting by the `is_completed` flag (as the SQL
query does) agrees with counting by `clock_out IS NULL` (as the spec's
open-record notion does). -/
theorem countP_completed_eq_open (st : Store) (hWF : WF st) (eid : Nat) :
    st.records.countP (fun r => r.employeeId == eid && !r.isCompleted) =
      st.records.countP (openP eid) := by
  refine countP_congr_mem _ _ _ ?_
  intro r hr
  have hag := hWF.2.2.2 r hr
  simp only [openP]
  cases hco : r.clockOut <;> cases hic : r.isCompleted <;> simp_all

end MainSrv

namespace MainSrv

/-- Employee table after the clock-in writes. -/
theorem clockInTx_employees (st : Store) (emp : Employee) (t : Int) :
    (clockInTx st emp t).employees =
      st.employees.map (fun e => if e.id == emp.id then { e with isPresent := true } else e) :=
  rfl

/-- Ledger after the clock-in writes. -/
theorem clockInTx_records (st : Store) (emp : Employee) (t : Int) :
    (clockInTx st emp t).records = (insertOpenRecord st emp.id t).records := rfl

/-- Employee table after the clock-out writes. -/
theorem clockOutTx_employees (st : Store) (rid : Nat) (emp : Employee) (t : Int) :
    (clockOutTx st rid emp t).employees =
      st.employees.map (fun e => if e.id == emp.id then { e with isPresent := false } else e) :=
  rfl

/-- Ledger after the clock-out writes. -/
theorem clockOutTx_records (st : Store) (rid : Nat) (emp : Employee) (t : Int) :
    (clockOutTx st rid emp t).records = (closeRecordById st rid t).records := rfl

/-- The clock-in writes preserve well-formedness and the open-record
invariant when the employee was absent. -/
theorem clockInTx_preserves (st : Store) (emp : Employee) (t : Int)
    (hWF : WF st) (hInv : Inv st) (hmem : emp ∈ st.employees)
    (habs : emp.isPresent = false) :
    WF (clockInTx st emp t) ∧ Inv (clockInTx st emp t) := by
  obtain ⟨hpe, hpr, hbound, hagree⟩ := hWF
  have hcnt : ∀ eid', (clockInTx st emp t).records.countP (openP eid') =
      st.records.countP (openP eid') + (if eid' = emp.id then 1 else 0) := by
    intro eid'
    rw [clockInTx_records]
    exact countP_open_insert st emp.id t eid'
  constructor
  · refine ⟨?_, ?_, ?_, ?_⟩
    · rw [clockInTx_employees, List.pairwise_map]
      exact hpe.imp (fun h => by
        simp only [setPresent_upd_id]
        exact h)
    · show (st.records ++ [newRecord st emp.id t]).Pairwise _
      rw [List.pairwise_append]
      refine ⟨hpr, List.pairwise_singleton _ _, ?_⟩
      intro a ha b hb
      have hb2 : b = newRecord st emp.id t := by simpa using hb
      subst hb2
      exact Nat.ne_of_lt (hbound a ha)
    · intro r hr
      show r.id < st.nextRecordId + 1
      rcases List.mem_append.mp hr with h1 | h2
      · exact Nat.lt_trans (hbound r h1) (Nat.lt_succ_self _)
      · have hb2 : r = newRecord st emp.id t := by simpa using h2
        subst hb2
        exact Nat.lt_succ_self _
    · intro r hr
      rcases List.mem_append.mp hr with h1 | h2
      · exact hagree r h1
      · have hb2 : r = newRecord st emp.id t := by simpa using h2
        subst hb2
        simp [newRecord]
  · intro e' he'
    rw [clockInTx_employees] at he'
    obtain ⟨e, he, rfl⟩ := List.mem_map.mp he'
    rw [openRecs_length, hcnt]
    by_cases hid : e.id = emp.id
    · have heq : e = emp := mem_eq_of_pairwise_key Employee.id hpe e emp he hmem hid
      subst heq
      have hbeq : (e.id == e.id) = true := beq_self_eq_true _
      simp only [hbeq, if_true, setPresent_upd_id]
      have h0 : st.records.countP (openP e.id) = 0 := by
        have := hInv e he
        rw [openRecs_length] at this
        rw [this, habs]
        rfl
      simp [h0, hid]
    · have hbeq : (e.id == emp.id) = false := beq_eq_false_iff_ne.mpr hid
      simp only [hbeq, if_false]
      have := hInv e he
      rw [openRecs_length] at this
      simp [hid, this]

/-- Row update of the closing UPDATE preserves the row id. -/
theorem closeUpd_id (rid : Nat) (t : Int) (r : TimeRec) : (closeUpd rid t r).id = r.id := by
  unfold closeUpd
  split <;> rfl

/-- The closing UPDATE hits the row with the matching id. -/
theorem closeUpd_self (t : Int) (r : TimeRec) :
    closeUpd r.id t r =
      { r with clockOut := some t,
               totalHours := some (((t - r.clockIn : Int) : Rat) / 3600),
               isCompleted := true } := by
  unfold closeUpd
  simp

/-- The closing UPDATE leaves rows with other ids unchanged. -/
theorem closeUpd_other (rid : Nat) (t : Int) (r : TimeRec) (h : r.id ≠ rid) :
    closeUpd rid t r = r := by
  unfold closeUpd
  simp [beq_eq_false_iff_ne.mpr h]

/-- The clock-out writes preserve well-formedness and the open-record
invariant when the employee was present and `r0` is the open record found by
the engine's query. -/
theorem clockOutTx_preserves (st : Store) (emp : Employee) (r0 : TimeRec) (t : Int)
    (hWF : WF st) (hInv : Inv st) (hmem : emp ∈ st.employees)
    (hpres : emp.isPresent = true) (hfind : findOpenRecord st emp.id = some r0) :
    WF (clockOutTx st r0.id emp t) ∧ Inv (clockOutTx st r0.id emp t) := by
  obtain ⟨hpe, hpr, hbound, hagree⟩ := hWF
  have hr0mem : r0 ∈ st.records := List.mem_of_find?_eq_some hfind
  have hr0p := List.find?_some hfind
  have hr0eid : r0.employeeId = emp.id := by
    have := (Bool.and_eq_true _ _).mp hr0p
    exact beq_iff_eq.mp this.1
  have hr0nc : r0.isCompleted = false := by
    have := (Bool.and_eq_true _ _).mp hr0p
    simpa using this.2
  have hr0open : r0.clockOut.isNone = true := (hagree r0 hr0mem).mpr hr0nc
  have hrecsr : (clockOutTx st r0.id emp t).records = st.records.map (closeUpd r0.id t) := rfl
  have hfix : ∀ r ∈ st.records, r ≠ r0 → closeUpd r0.id t r = r := by
    intro r hr hne
    refine closeUpd_other r0.id t r (fun hcontra => ?_)
    exact hne (mem_eq_of_pairwise_key TimeRec.id hpr r r0 hr hr0mem hcontra)
  have hcount1 : st.records.count r0 = 1 :=
    count_eq_one_of_pairwise_key TimeRec.id hpr r0 hr0mem
  have hkey := fun q => countP_map_update q (closeUpd r0.id t) r0 st.records hfix hcount1
  have hafter_emp : (st.records.map (closeUpd r0.id t)).countP (openP emp.id) = 0 := by
    have hk := hkey (openP emp.id)
    have hq1 : openP emp.id r0 = true := by
      simp [openP, hr0eid, hr0open]
    have hq2 : openP emp.id (closeUpd r0.id t r0) = false := by
      rw [closeUpd_self]
      simp [openP]
    rw [hq1, hq2, if_pos rfl, if_neg (by simp)] at hk
    have hst : st.records.countP (openP emp.id) = 1 := by
      have := hInv emp hmem
      rw [openRecs_length] at this
      rw [this, hpres]
      simp
    omega
  have hafter_other : ∀ eid', eid' ≠ emp.id →
      (st.records.map (closeUpd r0.id t)).countP (openP eid') =
        st.records.countP (openP eid') := by
    intro eid' hne
    have hk := hkey (openP eid')
    have hq1 : openP eid' r0 = false := by
      simp [openP, hr0eid, beq_eq_false_iff_ne.mpr (Ne.symm hne)]
    have hq2 : openP eid' (closeUpd r0.id t r0) = false := by
      rw [closeUpd_self]
      simp [openP]
    rw [hq1, hq2] at hk
    simpa using hk
  constructor
  · refine ⟨?_, ?_, ?_, ?_⟩
    · rw [clockOutTx_employees, List.pairwise_map]
      exact hpe.imp (fun h => by
        simp only [setPresent_upd_id]
        exact h)
    · rw [hrecsr, List.pairwise_map]
      exact hpr.imp (fun h => by
        simp only [closeUpd_id]
        exact h)
    · intro r hr
      rw [hrecsr] at hr
      obtain ⟨r1, hr1, rfl⟩ := List.mem_map.mp hr
      show (closeUpd r0.id t r1).id < st.nextRecordId
      rw [closeUpd_id]
      exact hbound r1 hr1
    · intro r hr
      rw [hrecsr] at hr
      obtain ⟨r1, hr1, rfl⟩ := List.mem_map.mp hr
      by_cases hco : r1.id = r0.id
      · rw [show closeUpd r0.id t r1 = closeUpd r1.id t r1 from by rw [hco],
          closeUpd_self]
        simp
      · rw [closeUpd_other r0.id t r1 hco]
        exact hagree r1 hr1
  · intro e' he'
    rw [clockOutTx_employees] at he'
    obtain ⟨e, he, rfl⟩ := List.mem_map.mp he'
    rw [openRecs_length]
    by_cases hid : e.id = emp.id
    · have heq : e = emp := mem_eq_of_pairwise_key Employee.id hpe e emp he hmem hid
      subst heq
      have hbeq : (e.id == e.id) = true := beq_self_eq_true _
      have h0 : (clockOutTx st r0.id e t).records.countP (openP e.id) = 0 := by
        rw [hrecsr]
        exact hafter_emp
      simp [hbeq, h0]
    · have hbeq : (e.id == emp.id) = false := beq_eq_false_iff_ne.mpr hid
      have hold := hInv e he
      rw [openRecs_length] at hold
      have h1 : List.countP (openP e.id) (List.map (closeUpd r0.id t) st.records) =
          List.countP (openP e.id) st.records := hafter_other e.id hid
      simp only [hbeq, Bool.false_eq_true, if_false]
      rw [hrecsr, h1]
      exact hold

end MainSrv

namespace MainSrv

/-- One `handleRFIDScan` call — under any injected-failure schedule — keeps
the store well-formed and keeps the open-record invariant. -/
theorem handleRFIDScan_preserves (f : FailSpec) (st : Store) (uid : String) (now : Int)
    (hWF : WF st) (hInv : Inv st) :
    WF (handleRFIDScan f st uid now).2 ∧ Inv (handleRFIDScan f st uid now).2 := by
  unfold handleRFIDScan
  repeat' split
  all_goals try exact ⟨hWF, hInv⟩
  · rename_i h5 h4 x emp heq hflag hins hupd hcom
    exact clockInTx_preserves st emp now hWF hInv (List.mem_of_find?_eq_some heq)
      (by simpa using hflag)
  · rename_i h6 h5 x1 emp heq1 hflag hol x2 r0 heq2 hcu hpu hcf
    exact clockOutTx_preserves st emp r0 now hWF hInv (List.mem_of_find?_eq_some heq1)
      (by simpa using hflag) heq2

/-- Each call either succeeds or leaves the store untouched. -/
theorem handleRFIDScan_ok_or_frame (f : FailSpec) (st : Store) (uid : String) (now : Int) :
    (∃ r, (handleRFIDScan f st uid now).1 = .ok r) ∨
      (handleRFIDScan f st uid now).2 = st := by
  unfold handleRFIDScan
  repeat' split
  all_goals simp

/-- Every error return of `handleRFIDScan` leaves the store unchanged: all
failing paths return before `tx.Commit`, and the deferred rollback discards
the transaction. -/
theorem handleRFIDScan_error_frame (f : FailSpec) (st : Store) (uid : String) (now : Int)
    (e : ScanError) (h : (handleRFIDScan f st uid now).1 = .error e) :
    (handleRFIDScan f st uid now).2 = st := by
  rcases handleRFIDScan_ok_or_frame f st uid now with ⟨r, hr⟩ | hframe
  · rw [h] at hr
    simp at hr
  · exact hframe

/-- A failure-free scan of an absent employee's badge: clock-in. -/
theorem handleRFIDScan_noFail_clockIn (st : Store) (uid : String) (now : Int) (emp : Employee)
    (hfind : findEmployee st uid = some emp) (habs : emp.isPresent = false) :
    handleRFIDScan noFail st uid now =
      (.ok { employeeName := emp.name, action := .clockIn, timestamp := now },
       clockInTx st emp now) := by
  simp [handleRFIDScan, noFail, hfind, habs]

/-- A failure-free scan of a present employee's badge whose open record is
found: clock-out. -/
theorem handleRFIDScan_noFail_clockOut (st : Store) (uid : String) (now : Int)
    (emp : Employee) (r0 : TimeRec)
    (hfind : findEmployee st uid = some emp) (hpres : emp.isPresent = true)
    (hopen : findOpenRecord st emp.id = some r0) :
    handleRFIDScan noFail st uid now =
      (.ok { employeeName := emp.name, action := .clockOut, timestamp := now },
       clockOutTx st r0.id emp now) := by
  simp [handleRFIDScan, noFail, hfind, hpres, hopen]

/-- Under the invariant, a present employee always has an open record for the
engine's query to find. -/
theorem findOpenRecord_isSome_of_present (st : Store) (emp : Employee)
    (hWF : WF st) (hInv : Inv st) (hmem : emp ∈ st.employees)
    (hpres : emp.isPresent = true) :
    ∃ r0, findOpenRecord st emp.id = some r0 := by
  cases hfind : findOpenRecord st emp.id with
  | some r => exact ⟨r, rfl⟩
  | none =>
    exfalso
    have hall := List.find?_eq_none.mp hfind
    have h0 : st.records.countP (fun r => r.employeeId == emp.id && !r.isCompleted) = 0 := by
      rw [List.countP_eq_zero]
      intro r hr
      exact hall r hr
    rw [countP_completed_eq_open st hWF emp.id] at h0
    have h1 := hInv emp hmem
    rw [openRecs_length, h0, hpres] at h1
    simp at h1

end MainSrv

namespace MainSrv

/-- Looking up the same badge after the clock-in writes returns the same
employee with the presence flag set. -/
theorem findEmployee_clockInTx (st : Store) (uid : String) (emp : Employee) (t : Int)
    (hfind : findEmployee st uid = some emp) :
    findEmployee (clockInTx st emp t) uid = some { emp with isPresent := true } := by
  show List.find? (fun e => e.cardUid == uid)
      (st.employees.map (fun e => if e.id == emp.id then { e with isPresent := true } else e)) =
    some { emp with isPresent := true }
  rw [List.find?_map]
  have hcomp : ((fun e => e.cardUid == uid) ∘
      (fun e => if e.id == emp.id then { e with isPresent := true } else e)) =
      (fun e : Employee => e.cardUid == uid) := by
    funext e
    simp only [Function.comp]
    rw [setPresent_upd_cardUid]
  rw [hcomp]
  rw [show List.find? (fun e => e.cardUid == uid) st.employees = some emp from hfind]
  simp

/-- Looking up the same badge after the clock-out writes returns the same
employee with the presence flag cleared. -/
theorem findEmployee_clockOutTx (st : Store) (uid : String) (rid : Nat) (emp : Employee) (t : Int)
    (hfind : findEmployee st uid = some emp) :
    findEmployee (clockOutTx st rid emp t) uid = some { emp with isPresent := false } := by
  show List.find? (fun e => e.cardUid == uid)
      (st.employees.map (fun e => if e.id == emp.id then { e with isPresent := false } else e)) =
    some { emp with isPresent := false }
  rw [List.find?_map]
  have hcomp : ((fun e => e.cardUid == uid) ∘
      (fun e => if e.id == emp.id then { e with isPresent := false } else e)) =
      (fun e : Employee => e.cardUid == uid) := by
    funext e
    simp only [Function.comp]
    rw [setPresent_upd_cardUid]
  rw [hcomp]
  rw [show List.find? (fun e => e.cardUid == uid) st.employees = some emp from hfind]
  simp

/-- Reachability: any sequence of scans preserves well-formedness and the
open-record invariant. -/
theorem runScans_preserves (scans : List (FailSpec × String × Int)) :
    ∀ st : Store, WF st → Inv st → WF (runScans st scans) ∧ Inv (runScans st scans) := by
  induction scans with
  | nil => intro st hWF hInv; exact ⟨hWF, hInv⟩
  | cons s rest ih =>
    intro st hWF hInv
    have hstep := handleRFIDScan_preserves s.1 st s.2.1 s.2.2 hWF hInv
    exact ih _ hstep.1 hstep.2

/-- Successive failure-free scans of one badge produce the strictly
alternating event-kind sequence determined by the current presence flag. -/
theorem scanTrace_alternates (uid : String) :
    ∀ (ts : List Int) (st : Store) (emp : Employee),
      WF st → Inv st → findEmployee st uid = some emp →
      kindsOf (scanTrace st uid ts).1 = altKinds ts.length emp.isPresent := by
  intro ts
  induction ts with
  | nil => intro st emp _ _ _; rfl
  | cons t ts ih =>
    intro st emp hWF hInv hfind
    have hmem := List.mem_of_find?_eq_some hfind
    cases hpres : emp.isPresent
    · have hstep := handleRFIDScan_noFail_clockIn st uid t emp hfind hpres
      have hkeep := clockInTx_preserves st emp t hWF hInv hmem hpres
      have hfind2 := findEmployee_clockInTx st uid emp t hfind
      have h1 : (handleRFIDScan noFail st uid t).1 =
          .ok { employeeName := emp.name, action := .clockIn, timestamp := t } := by
        rw [hstep]
      have h2 : (handleRFIDScan noFail st uid t).2 = clockInTx st emp t := by
        rw [hstep]
      show kindsOf ((handleRFIDScan noFail st uid t).1 ::
          (scanTrace (handleRFIDScan noFail st uid t).2 uid ts).1) = _
      rw [h1, h2]
      simp only [kindsOf, List.map_cons]
      have hih := ih (clockInTx st emp t) { emp with isPresent := true }
        hkeep.1 hkeep.2 hfind2
      simp only [kindsOf] at hih
      rw [hih]
      simp [altKinds]
    · obtain ⟨r0, hr0⟩ := findOpenRecord_isSome_of_present st emp hWF hInv hmem hpres
      have hstep := handleRFIDScan_noFail_clockOut st uid t emp r0 hfind hpres hr0
      have hkeep := clockOutTx_preserves st emp r0 t hWF hInv hmem hpres hr0
      have hfind2 := findEmployee_clockOutTx st uid r0.id emp t hfind
      have h1 : (handleRFIDScan noFail st uid t).1 =
          .ok { employeeName := emp.name, action := .clockOut, timestamp := t } := by
        rw [hstep]
      have h2 : (handleRFIDScan noFail st uid t).2 = clockOutTx st r0.id emp t := by
        rw [hstep]
      show kindsOf ((handleRFIDScan noFail st uid t).1 ::
          (scanTrace (handleRFIDScan noFail st uid t).2 uid ts).1) = _
      rw [h1, h2]
      simp only [kindsOf, List.map_cons]
      have hih := ih (clockOutTx st r0.id emp t) { emp with isPresent := false }
        hkeep.1 hkeep.2 hfind2
      simp only [kindsOf] at hih
      rw [hih]
      simp [altKinds]

end MainSrv

namespace MainSrv

/-- C1: for every employee, in every state reachable by any sequence of
`handleRFIDScan` operations (under any injected-failure schedule) from an
initial well-formed state with no time records and every enrollment flag
`is_present = FALSE` (the schema default), the number of TimeRecord rows
with `clock_out` absent is 0 or 1, and it is 1 exactly when the employee's
`is_present` flag is true. -/
theorem C1_open_record_uniqueness (st0 : Store)
    (hWF : WF st0) (hrecords : st0.records = [])
    (hflags : ∀ e ∈ st0.employees, e.isPresent = false)
    (scans : List (FailSpec × String × Int)) :
    ∀ e ∈ (runScans st0 scans).employees,
      (openRecs (runScans st0 scans) e.id).length ≤ 1 ∧
      ((openRecs (runScans st0 scans) e.id).length = 1 ↔ e.isPresent = true) := by
  have hInv0 : Inv st0 := by
    intro e he
    rw [hflags e he]
    simp [openRecs, hrecords]
  have hInv := (runScans_preserves scans st0 hWF hInv0).2
  intro e he
  have hlen := hInv e he
  cases hbool : e.isPresent
  · rw [hbool] at hlen
    simp at hlen
    constructor
    · simp [hlen]
    · simp [hlen]
  · rw [hbool] at hlen
    simp at hlen
    exact ⟨le_of_eq hlen, by simp [hlen]⟩

/-- Witness for C1 at the concrete store and scan sequence, instantiated at
Bob (present after the scans: one open record). -/
theorem C1_open_record_uniqueness_witness :
    (openRecs (runScans egStore egScans) 2).length ≤ 1 ∧
    ((openRecs (runScans egStore egScans) 2).length = 1 ↔ true = true) :=
  C1_open_record_uniqueness egStore
    (by unfold WF; refine ⟨?_, ?_, ?_, ?_⟩ <;> decide)
    rfl (by decide) egScans
    { id := 2, name := "Bob", cardUid := "CD34", isPresent := true } (by decide)

/-- C2: starting from the Absent state, the event kinds of successive
failure-free scans of one badge strictly alternate ClockIn, ClockOut, … —
every scan succeeds, and the kind is ClockIn exactly when the flag was
false. -/
theorem C2_alternation (st : Store) (uid : String) (emp : Employee) (ts : List Int)
    (hWF : WF st) (hInv : Inv st)
    (hfind : findEmployee st uid = some emp) (habs : emp.isPresent = false) :
    kindsOf (scanTrace st uid ts).1 = altKinds ts.length false := by
  have h := scanTrace_alternates uid ts st emp hWF hInv hfind
  rwa [habs] at h

/-- Witness for C2: five scans of Alice's badge from the fresh store. -/
theorem C2_alternation_witness :
    kindsOf (scanTrace egStore "AB12" [1, 2, 3, 4, 5]).1 = altKinds 5 false :=
  C2_alternation egStore "AB12"
    { id := 1, name := "Alice", cardUid := "AB12", isPresent := false }
    [1, 2, 3, 4, 5]
    (by unfold WF; refine ⟨?_, ?_, ?_, ?_⟩ <;> decide)
    (by unfold Inv; decide)
    (by decide) rfl

/-- C3: the scan transaction is all-or-nothing — whenever `handleRFIDScan`
returns a failure (under any injected-failure schedule), the store after the
call equals the store before it; no partial write is observable. -/
theorem C3_scan_atomicity (f : FailSpec) (st : Store) (uid : String) (now : Int)
    (e : ScanError) (h : (handleRFIDScan f st uid now).1 = .error e) :
    (handleRFIDScan f st uid now).2 = st :=
  handleRFIDScan_error_frame f st uid now e h

/-- Witness for C3: a commit failure on a concrete scan leaves the concrete
store unchanged. -/
theorem C3_scan_atomicity_witness :
    (handleRFIDScan ⟨false, false, false, false, false, false, true⟩
        egStore "AB12" 7).2 = egStore :=
  C3_scan_atomicity ⟨false, false, false, false, false, false, true⟩
    egStore "AB12" 7 .dbError rfl

/-- C7 counterexample: `openRecord` (the clock-in INSERT) does not fail when
an open record already exists.  In `corruptStore` employee 1 already has one
open record, yet the scan succeeds with a ClockIn and leaves TWO open
records — no defensive invariant check exists in the code. -/
theorem C7_counterexample_no_defensive_check :
    (openRecs corruptStore 1).length = 1 ∧
    (handleRFIDScan noFail corruptStore "AB" 5).1 =
      .ok { employeeName := "Bob", action := .clockIn, timestamp := 5 } ∧
    (openRecs (handleRFIDScan noFail corruptStore "AB" 5).2 1).length = 2 := by
  refine ⟨by decide, rfl, by decide⟩

/-- C7 as amended: the clock-in INSERT is unconditional.  Whenever the badge
resolves and the presence flag is false, the scan succeeds and appends a new
open record to the ledger, regardless of whether an open record for that
employee already exists; the only guard in `handleRFIDScan` is the
`is_present` flag itself. -/
theorem C7_amended_openRecord_unconditional (st : Store) (uid : String) (now : Int)
    (emp : Employee)
    (hfind : findEmployee st uid = some emp) (habs : emp.isPresent = false) :
    handleRFIDScan noFail st uid now =
      (.ok { employeeName := emp.name, action := .clockIn, timestamp := now },
        clockInTx st emp now) ∧
    (clockInTx st emp now).records = st.records ++ [newRecord st emp.id now] ∧
    (newRecord st emp.id now).clockOut = none :=
  ⟨handleRFIDScan_noFail_clockIn st uid now emp hfind habs, rfl, rfl⟩

/-- Witness for the amended C7 at the corrupted store. -/
theorem C7_amended_witness :
    handleRFIDScan noFail corruptStore "AB" 5 =
      (.ok { employeeName := "Bob", action := .clockIn, timestamp := 5 },
        clockInTx corruptStore { id := 1, name := "Bob", cardUid := "AB", isPresent := false } 5) ∧
    (clockInTx corruptStore { id := 1, name := "Bob", cardUid := "AB", isPresent := false } 5).records =
      corruptStore.records ++ [newRecord corruptStore 1 5] ∧
    (newRecord corruptStore 1 5).clockOut = none :=
  C7_amended_openRecord_unconditional corruptStore "AB" 5
    { id := 1, name := "Bob", cardUid := "AB", isPresent := false } (by decide) rfl

end MainSrv

namespace Part004

/-- The descending open-record lookup returns `none` exactly when the
employee has no open record. -/
theorem findOpenDesc_eq_none (eid : Nat) :
    ∀ l : List TimeRec, findOpenDesc eid l = none ↔
      ∀ r ∈ l, ¬(r.employeeId = eid ∧ r.clockOut = none) := by
  intro l
  induction l with
  | nil => simp [findOpenDesc]
  | cons r0 rs ih =>
    unfold findOpenDesc
    by_cases hp : (r0.employeeId == eid && r0.clockOut.isNone) = true
    · rw [if_pos hp]
      have hprop : r0.employeeId = eid ∧ r0.clockOut = none := by
        have := (Bool.and_eq_true _ _).mp hp
        exact ⟨beq_iff_eq.mp this.1, Option.isNone_iff_eq_none.mp this.2⟩
      constructor
      · intro hnone
        exfalso
        cases hrest : findOpenDesc eid rs <;> rw [hrest] at hnone
        · exact Option.noConfusion hnone
        · rename_i b
          dsimp only at hnone
          by_cases hgt : b.clockIn > r0.clockIn
          · rw [if_pos hgt] at hnone
            exact Option.noConfusion hnone
          · rw [if_neg hgt] at hnone
            exact Option.noConfusion hnone
      · intro hall
        exact absurd hprop (hall r0 (List.mem_cons_self _ _))
    · rw [if_neg hp]
      rw [ih]
      constructor
      · intro hall r hr hrp
        rcases List.mem_cons.mp hr with rfl | hr2
        · apply hp
          rw [Bool.and_eq_true]
          exact ⟨beq_iff_eq.mpr hrp.1, Option.isNone_iff_eq_none.mpr hrp.2⟩
        · exact hall r hr2 hrp
      · intro hall r hr hrp
        exact hall r (List.mem_cons_of_mem _ hr) hrp

/-- The descending open-record lookup returns an open record of the employee
with maximal `clock_in` (the "most recent"). -/
theorem findOpenDesc_spec (eid : Nat) :
    ∀ (l : List TimeRec) (r : TimeRec), findOpenDesc eid l = some r →
      r ∈ l ∧ r.employeeId = eid ∧ r.clockOut = none ∧
      ∀ r2 ∈ l, r2.employeeId = eid → r2.clockOut = none → r2.clockIn ≤ r.clockIn := by
  intro l
  induction l with
  | nil => intro r h; exact absurd h (by simp [findOpenDesc])
  | cons r0 rs ih =>
    intro r h
    unfold findOpenDesc at h
    by_cases hp : (r0.employeeId == eid && r0.clockOut.isNone) = true
    · rw [if_pos hp] at h
      have hprop : r0.employeeId = eid ∧ r0.clockOut = none := by
        have := (Bool.and_eq_true _ _).mp hp
        exact ⟨beq_iff_eq.mp this.1, Option.isNone_iff_eq_none.mp this.2⟩
      cases hrest : findOpenDesc eid rs <;> rw [hrest] at h
      · -- no open record in the tail
        have hnone := (findOpenDesc_eq_none eid rs).mp hrest
        cases h
        refine ⟨List.mem_cons_self _ _, hprop.1, hprop.2, ?_⟩
        intro r2 hr2 h1 h2
        rcases List.mem_cons.mp hr2 with rfl | hr22
        · exact le_refl _
        · exact absurd ⟨h1, h2⟩ (hnone r2 hr22)
      · rename_i b
        dsimp only at h
        obtain ⟨hbmem, hbeid, hbopen, hbmax⟩ := ih b hrest
        by_cases hgt : b.clockIn > r0.clockIn
        · rw [if_pos hgt] at h
          cases h
          refine ⟨List.mem_cons_of_mem _ hbmem, hbeid, hbopen, ?_⟩
          intro r2 hr2 h1 h2
          rcases List.mem_cons.mp hr2 with rfl | hr22
          · exact le_of_lt hgt
          · exact hbmax r2 hr22 h1 h2
        · rw [if_neg hgt] at h
          cases h
          refine ⟨List.mem_cons_self _ _, hprop.1, hprop.2, ?_⟩
          intro r2 hr2 h1 h2
          rcases List.mem_cons.mp hr2 with rfl | hr22
          · exact le_refl _
          · exact le_trans (hbmax r2 hr22 h1 h2) (by omega)
    · rw [if_neg hp] at h
      obtain ⟨hmem, heid, hopen, hmax⟩ := ih r h
      refine ⟨List.mem_cons_of_mem _ hmem, heid, hopen, ?_⟩
      intro r2 hr2 h1 h2
      rcases List.mem_cons.mp hr2 with rfl | hr22
      · exfalso
        apply hp
        rw [Bool.and_eq_true]
        exact ⟨beq_iff_eq.mpr h1, Option.isNone_iff_eq_none.mpr h2⟩
      · exact hmax r2 hr22 h1 h2

end Part004

namespace Part004

/-- C6: `closeRecord` (the clock-out lookup and UPDATE of part_004, lines
167-190) finds the employee's open record by ordering open records by
`clock_in` descending and taking the most recent, sets its `clock_out`
(and `total_hours`), and fails with the no-open-record error — leaving the
store unchanged — when the employee has no open record. -/
theorem C6_closeRecord_spec (st : Store) (eid : Nat) (now : Int) :
    (findOpenDesc eid st.records = none →
      closeRecord st eid now = (.error .noOpenRecord, st)) ∧
    (∀ r, findOpenDesc eid st.records = some r →
      r ∈ st.records ∧ r.employeeId = eid ∧ r.clockOut = none ∧
      (∀ r2 ∈ st.records, r2.employeeId = eid → r2.clockOut = none →
        r2.clockIn ≤ r.clockIn) ∧
      (closeRecord st eid now).1 = .ok r.id ∧
      { r with clockOut := some now,
               totalHours := some (sqliteRound2 (((now - r.clockIn : Int) : Rat) / 3600)) }
          ∈ (closeRecord st eid now).2.records ∧
      ∀ r2 ∈ st.records, r2.id ≠ r.id → r2 ∈ (closeRecord st eid now).2.records) := by
  constructor
  · intro hnone
    unfold closeRecord
    rw [hnone]
  · intro r hr
    obtain ⟨hmem, heid, hopen, hmax⟩ := findOpenDesc_spec eid st.records r hr
    have hcr : closeRecord st eid now =
        (.ok r.id, { st with records := st.records.map (closeUpd4 r.id now) }) := by
      unfold closeRecord
      rw [hr]
    refine ⟨hmem, heid, hopen, hmax, by rw [hcr], ?_, ?_⟩
    · rw [hcr]
      have hself : closeUpd4 r.id now r =
          { r with clockOut := some now,
                   totalHours := some (sqliteRound2 (((now - r.clockIn : Int) : Rat) / 3600)) } := by
        unfold closeUpd4
        simp
      rw [← hself]
      exact List.mem_map_of_mem _ hmem
    · intro r2 hr2 hne
      rw [hcr]
      have hkeep : closeUpd4 r.id now r2 = r2 := by
        unfold closeUpd4
        simp [beq_eq_false_iff_ne.mpr hne]
      rw [← hkeep]
      exact List.mem_map_of_mem _ hr2

/-- Witness for C6: on the concrete store, employee 2 has no open record and
the call fails leaving the store unchanged; employee 1's open record (id 1)
is the one closed. -/
theorem C6_closeRecord_witness :
    closeRecord egStore4 2 30 = (.error .noOpenRecord, egStore4) ∧
    (closeRecord egStore4 1 30).1 = .ok 1 :=
  ⟨(C6_closeRecord_spec egStore4 2 30).1 (by decide),
   ((C6_closeRecord_spec egStore4 1 30).2
      { id := 1, employeeId := 1, clockIn := 0, clockOut := none, totalHours := none }
      (by decide)).2.2.2.2.1⟩

/-- The two-decimal rounding stores a value that is an integer number of
hundredths of an hour. -/
theorem sqliteRound2_mul_100_int (q : Rat) : ∃ k : Int, sqliteRound2 q * 100 = k := by
  refine ⟨round (q * 100), ?_⟩
  unfold sqliteRound2
  field_simp

/-- The two-decimal rounding moves the value by at most half a hundredth. -/
theorem sqliteRound2_close (q : Rat) : |sqliteRound2 q - q| ≤ 1 / 200 := by
  unfold sqliteRound2
  have h := abs_sub_round (q * 100)
  rw [abs_sub_comm] at h
  have heq : ((round (q * 100) : Int) : Rat) / 100 - q =
      (((round (q * 100) : Int) : Rat) - q * 100) / 100 := by
    ring
  rw [heq, abs_div]
  rw [show |(100 : Rat)| = 100 by norm_num]
  calc |((round (q * 100) : Int) : Rat) - q * 100| / 100 ≤ (1 / 2) / 100 := by
        exact (div_le_div_iff_of_pos_right (by norm_num)).mpr h
    _ = 1 / 200 := by norm_num

/-- The record closed by part_004's clock-out stores a `total_hours` that is
a whole number of hundredths of an hour within 18 seconds of the true
duration (but in general not equal to it). -/
theorem part004_duration_bound (st : Store) (eid : Nat) (now : Int) (r : TimeRec)
    (hr : findOpenDesc eid st.records = some r) :
    ∃ q : Rat,
      { r with clockOut := some now, totalHours := some q }
          ∈ (closeRecord st eid now).2.records ∧
      (∃ k : Int, q * 100 = k) ∧
      |q * 3600 - ((now - r.clockIn : Int) : Rat)| ≤ 18 := by
  obtain ⟨hmem, heid, hopen, hmax⟩ := findOpenDesc_spec eid st.records r hr
  refine ⟨sqliteRound2 (((now - r.clockIn : Int) : Rat) / 3600), ?_,
    sqliteRound2_mul_100_int _, ?_⟩
  · have hcr : closeRecord st eid now =
        (.ok r.id, { st with records := st.records.map (closeUpd4 r.id now) }) := by
      unfold closeRecord
      rw [hr]
    rw [hcr]
    have hself : closeUpd4 r.id now r =
        { r with clockOut := some now,
                 totalHours := some (sqliteRound2 (((now - r.clockIn : Int) : Rat) / 3600)) } := by
      unfold closeUpd4
      simp
    rw [← hself]
    exact List.mem_map_of_mem _ hmem
  · have hclose := sqliteRound2_close (((now - r.clockIn : Int) : Rat) / 3600)
    have hsplit : sqliteRound2 (((now - r.clockIn : Int) : Rat) / 3600) * 3600 -
        ((now - r.clockIn : Int) : Rat) =
        (sqliteRound2 (((now - r.clockIn : Int) : Rat) / 3600) -
          ((now - r.clockIn : Int) : Rat) / 3600) * 3600 := by
      have hc : (((now - r.clockIn : Int) : Rat) / 3600) * 3600 =
          ((now - r.clockIn : Int) : Rat) := div_mul_cancel₀ _ (by norm_num)
      rw [sub_mul, hc]
    rw [hsplit, abs_mul]
    rw [show |(3600 : Rat)| = 3600 by norm_num]
    calc |sqliteRound2 (((now - r.clockIn : Int) : Rat) / 3600) -
          ((now - r.clockIn : Int) : Rat) / 3600| * 3600 ≤ (1 / 200) * 3600 := by
          exact mul_le_mul_of_nonneg_right hclose (by norm_num)
      _ = 18 := by norm_num

end Part004

namespace MainSrv

/-- After a failure-free clock-out in the main engine, the closed record
stores `total_hours` whose conversion back to seconds recovers
`clock_out - clock_in` exactly — no rounding. -/
theorem closedRecord_exact (st : Store) (uid : String) (now : Int)
    (emp : Employee) (r0 : TimeRec)
    (hfind : findEmployee st uid = some emp) (hpres : emp.isPresent = true)
    (hopen : findOpenRecord st emp.id = some r0) :
    ∃ q : Rat,
      { r0 with clockOut := some now, totalHours := some q, isCompleted := true }
          ∈ (handleRFIDScan noFail st uid now).2.records ∧
      q * 3600 = ((now - r0.clockIn : Int) : Rat) := by
  have hstep := handleRFIDScan_noFail_clockOut st uid now emp r0 hfind hpres hopen
  refine ⟨((now - r0.clockIn : Int) : Rat) / 3600, ?_, div_mul_cancel₀ _ (by norm_num)⟩
  have h2 : (handleRFIDScan noFail st uid now).2 = clockOutTx st r0.id emp now := by
    rw [hstep]
  rw [h2]
  show _ ∈ st.records.map (closeUpd r0.id now)
  rw [← closeUpd_self now r0]
  exact List.mem_map_of_mem _ (List.mem_of_find?_eq_some hopen)

end MainSrv

/-- C5 counterexample: the claim fails on the part_004 variant.  Clock-in at
second 0 and clock-out at second 30 stores `total_hours = 0.01` (ROUND to two
decimals = 36 seconds), which is not exactly `clock_out - clock_in` (30
seconds): second precision is lost. -/
theorem C5_counterexample_rounded_duration :
    (Part004.processCardScan Part004.egStore4 "EE" 30).2.records.map
        (fun r => r.totalHours) = [some (1 / 100 : Rat)] ∧
    (1 / 100 : Rat) * 3600 ≠ ((30 - 0 : Int) : Rat) := by
  constructor
  · simp [Part004.processCardScan, Part004.lookupEmployee, Part004.egStore4,
      Part004.closeRecord, Part004.findOpenDesc, Part004.closeUpd4, Part004.setPresentOut]
    unfold Part004.sqliteRound2
    rw [round_eq]
    norm_num
  · norm_num

/-- C5 as amended: in the main engine (src/main.go), the record closed by a
clock-out stores `total_hours` exactly equal to `clock_out - clock_in`
(converting the stored hours to seconds recovers the duration exactly); in
the part_004 variant, the stored `total_hours` is the duration rounded to
two decimal places of an hour — an integer number of hundredths of an hour
within 18 seconds of the true duration — so precision below 36 seconds is
lost there. -/
theorem C5_amended_duration :
    (∀ (st : MainSrv.Store) (uid : String) (now : Int)
        (emp : MainSrv.Employee) (r0 : MainSrv.TimeRec),
        MainSrv.findEmployee st uid = some emp → emp.isPresent = true →
        MainSrv.findOpenRecord st emp.id = some r0 →
        ∃ q : Rat,
          { r0 with clockOut := some now, totalHours := some q, isCompleted := true }
              ∈ (MainSrv.handleRFIDScan MainSrv.noFail st uid now).2.records ∧
          q * 3600 = ((now - r0.clockIn : Int) : Rat)) ∧
    (∀ (st : Part004.Store) (eid : Nat) (now : Int) (r : Part004.TimeRec),
        Part004.findOpenDesc eid st.records = some r →
        ∃ q : Rat,
          { r with clockOut := some now, totalHours := some q }
              ∈ (Part004.closeRecord st eid now).2.records ∧
          (∃ k : Int, q * 100 = k) ∧
          |q * 3600 - ((now - r.clockIn : Int) : Rat)| ≤ 18) :=
  ⟨MainSrv.closedRecord_exact, Part004.part004_duration_bound⟩

/-- Witness for the amended C5: Alice clocks out at 17:30:00 after clocking
in at 09:00:00 in the main engine (exact 8.5 h), and the part_004 record
opened at 0 is closed at 30. -/
theorem C5_amended_duration_witness :
    (∃ q : Rat,
        { MainSrv.egOpenRec with clockOut := some 63000, totalHours := some q, isCompleted := true }
            ∈ (MainSrv.handleRFIDScan MainSrv.noFail MainSrv.egStoreOut "AB12" 63000).2.records ∧
        q * 3600 = ((63000 - MainSrv.egOpenRec.clockIn : Int) : Rat)) ∧
    (∃ q : Rat,
        { Part004.egRec4 with clockOut := some 30, totalHours := some q }
            ∈ (Part004.closeRecord Part004.egStore4 1 30).2.records ∧
        (∃ k : Int, q * 100 = k) ∧
        |q * 3600 - ((30 - Part004.egRec4.clockIn : Int) : Rat)| ≤ 18) :=
  ⟨C5_amended_duration.1 MainSrv.egStoreOut "AB12" 63000
      { id := 1, name := "Alice", cardUid := "AB12", isPresent := true }
      MainSrv.egOpenRec (by decide) rfl (by decide),
   C5_amended_duration.2 Part004.egStore4 1 30 Part004.egRec4 (by decide)⟩

/-- C8 counterexample: two scans of Bob's badge racing as part_003's code
structure permits (both employee lookups before either transaction) both
observe Absent and both produce ClockIn, leaving two open records — whereas
the same two scans run strictly one after the other produce ClockIn then
ClockOut.  The claim's "exactly one observes Absent … never both Absent"
does not hold for this code. -/
theorem C8_counterexample_double_clockin :
    (Part003.racedScans Part003.egStore3 "B1" 100 101).1 =
      (.ok .clockIn, .ok .clockIn) ∧
    (Part003.openRecs3 (Part003.racedScans Part003.egStore3 "B1" 100 101).2 1).length = 2 ∧
    (Part003.handleRFIDScan Part003.egStore3 "B1" 100).1 = .ok .clockIn ∧
    (Part003.handleRFIDScan
        (Part003.handleRFIDScan Part003.egStore3 "B1" 100).2 "B1" 101).1 = .ok .clockOut := by
  refine ⟨rfl, by decide, rfl, rfl⟩

/-- C8 as amended: in part_003 (and part_004) the employee lookup — the read
of the presence flag — executes before the transaction begins, so the
read-decide-write sequence is NOT one atomic unit.  Under the interleaving
in which both lookups precede both transactions, two racing scans of an
Absent employee's badge both observe Absent, both return ClockIn, and leave
two open records; only the writes of each scan are atomic. -/
theorem C8_amended_lost_update (st : Part003.Store) (uid : String) (t1 t2 : Int)
    (emp : Part003.Employee)
    (hfind : Part003.lookupEmployee st uid = some emp)
    (habs : emp.isPresent = false) :
    (Part003.racedScans st uid t1 t2).1 = (.ok .clockIn, .ok .clockIn) ∧
    (Part003.openRecs3 (Part003.racedScans st uid t1 t2).2 emp.id).length =
      (Part003.openRecs3 st emp.id).length + 2 := by
  constructor
  · simp [Part003.racedScans, hfind, Part003.scanTx, habs]
  · simp [Part003.racedScans, hfind, Part003.scanTx, habs, Part003.openRecs3,
      List.filter_append]

/-- Witness for the amended C8 at the concrete store. -/
theorem C8_amended_lost_update_witness :
    (Part003.racedScans Part003.egStore3 "B1" 100 101).1 =
      (.ok .clockIn, .ok .clockIn) ∧
    (Part003.openRecs3 (Part003.racedScans Part003.egStore3 "B1" 100 101).2 1).length =
      (Part003.openRecs3 Part003.egStore3 1).length + 2 :=
  C8_amended_lost_update Part003.egStore3 "B1" 100 101
    { id := 1, name := "Bob", cardUid := "B1", isPresent := false } (by decide) rfl

namespace Api

/-- A returned last timestamp is attained by one of the user's rows. -/
theorem lastTimestamp_mem (u : Nat) :
    ∀ (rows : List ClockRow) (m : Int), lastTimestamp u rows = some m →
      ∃ r ∈ rows, r.userId = u ∧ r.timestamp = m := by
  intro rows
  induction rows with
  | nil => intro m h; exact absurd h (by simp [lastTimestamp])
  | cons r0 rs ih =>
    intro m h
    unfold lastTimestamp at h
    by_cases hu : (r0.userId == u) = true
    · rw [if_pos hu] at h
      cases hrest : lastTimestamp u rs <;> rw [hrest] at h
      · cases h
        exact ⟨r0, List.mem_cons_self _ _, beq_iff_eq.mp hu, rfl⟩
      · rename_i m0
        dsimp only at h
        cases h
        rcases max_choice r0.timestamp m0 with hmax | hmax
        · exact ⟨r0, List.mem_cons_self _ _, beq_iff_eq.mp hu, hmax.symm⟩
        · obtain ⟨r, hr, hru, hrt⟩ := ih m0 hrest
          exact ⟨r, List.mem_cons_of_mem _ hr, hru, by rw [hrt, hmax]⟩
    · rw [if_neg hu] at h
      obtain ⟨r, hr, hru, hrt⟩ := ih m h
      exact ⟨r, List.mem_cons_of_mem _ hr, hru, hrt⟩

/-- The last timestamp dominates every row of the user. -/
theorem lastTimestamp_ge (u : Nat) :
    ∀ (rows : List ClockRow) (r : ClockRow), r ∈ rows → r.userId = u →
      ∃ m, lastTimestamp u rows = some m ∧ r.timestamp ≤ m := by
  intro rows
  induction rows with
  | nil => intro r hr; cases hr
  | cons r0 rs ih =>
    intro r hr hru
    unfold lastTimestamp
    rcases List.mem_cons.mp hr with rfl | hr2
    · rw [if_pos (beq_iff_eq.mpr hru)]
      cases hrest : lastTimestamp u rs
      · exact ⟨r.timestamp, rfl, le_refl _⟩
      · rename_i m0
        exact ⟨max r.timestamp m0, rfl, le_max_left _ _⟩
    · obtain ⟨m, hm, hle⟩ := ih r hr2 hru
      by_cases hu : (r0.userId == u) = true
      · rw [if_pos hu, hm]
        exact ⟨max r0.timestamp m, rfl, le_trans hle (le_max_right _ _)⟩
      · rw [if_neg hu]
        exact ⟨m, hm, hle⟩

/-- The event type is always one of the two literals. -/
theorem eventType_cases (st : Store) (u : User) (now : Int) :
    eventType st u now = "Clock-In" ∨ eventType st u now = "Clock-Out" := by
  unfold eventType
  cases lastTimestamp u.id st.rows
  · exact Or.inl rfl
  · rename_i t
    dsimp only
    by_cases h : now - t < 12 * 3600
    · exact Or.inr (by rw [if_pos h])
    · exact Or.inl (by rw [if_neg h])

end Api

/-- C9: in the api.go variant the event kind is determined by elapsed time,
not a presence flag — the scan of a registered badge is reported Clock-Out
exactly when some previous `clock_in_out` row of that user has a timestamp
less than 12 hours before `now`, and Clock-In otherwise (so after any
12-hour gap the next scan is a Clock-In again); the handler answers
"<event>: <name>". -/
theorem C9_twelve_hour_heuristic (st : Api.Store) (uid : String) (now : Int) (u : Api.User)
    (hfind : Api.findUser st uid = some u) :
    (Api.eventType st u now = "Clock-Out" ↔
      ∃ row ∈ st.rows, row.userId = u.id ∧ now - row.timestamp < 12 * 3600) ∧
    (Api.eventType st u now = "Clock-In" ↔
      ¬∃ row ∈ st.rows, row.userId = u.id ∧ now - row.timestamp < 12 * 3600) ∧
    (Api.handleRFIDScan st uid now).1 = .ok (Api.eventType st u now ++ ": " ++ u.name) := by
  have hiff1 : Api.eventType st u now = "Clock-Out" ↔
      ∃ row ∈ st.rows, row.userId = u.id ∧ now - row.timestamp < 12 * 3600 := by
    constructor
    · intro h
      unfold Api.eventType at h
      cases hl : Api.lastTimestamp u.id st.rows <;> rw [hl] at h <;> dsimp only at h
      · exact absurd h (by decide)
      · rename_i t
        by_cases hlt : now - t < 12 * 3600
        · obtain ⟨r, hr, hru, hrt⟩ := Api.lastTimestamp_mem u.id st.rows t hl
          exact ⟨r, hr, hru, by rw [hrt]; exact hlt⟩
        · rw [if_neg hlt] at h
          exact absurd h (by decide)
    · rintro ⟨r, hr, hru, hlt⟩
      obtain ⟨m, hm, hle⟩ := Api.lastTimestamp_ge u.id st.rows r hr hru
      unfold Api.eventType
      rw [hm]
      dsimp only
      rw [if_pos (by omega)]
  refine ⟨hiff1, ⟨?_, ?_⟩, ?_⟩
  · intro h hex
    have h2 := hiff1.mpr hex
    rw [h] at h2
    exact absurd h2 (by decide)
  · intro hnex
    rcases Api.eventType_cases st u now with h | h
    · exact h
    · exact absurd (hiff1.mp h) hnex
  · unfold Api.handleRFIDScan
    rw [hfind]

/-- Witness for C9: Sam scanned at second 3600 (one hour after the stored
row at 0) is a Clock-Out; the same predicates instantiated concretely. -/
theorem C9_twelve_hour_heuristic_witness :
    (Api.eventType Api.egStoreApi
        { id := 1, name := "Sam", rfidOriginal := "S1", rfidNormalized := "S1" } 3600 =
        "Clock-Out" ↔
      ∃ row ∈ Api.egStoreApi.rows, row.userId = 1 ∧ (3600 : Int) - row.timestamp < 12 * 3600) ∧
    (Api.eventType Api.egStoreApi
        { id := 1, name := "Sam", rfidOriginal := "S1", rfidNormalized := "S1" } 3600 =
        "Clock-In" ↔
      ¬∃ row ∈ Api.egStoreApi.rows, row.userId = 1 ∧ (3600 : Int) - row.timestamp < 12 * 3600) ∧
    (Api.handleRFIDScan Api.egStoreApi "S1" 3600).1 =
      .ok (Api.eventType Api.egStoreApi
        { id := 1, name := "Sam", rfidOriginal := "S1", rfidNormalized := "S1" } 3600 ++
          ": " ++ "Sam") :=
  C9_twelve_hour_heuristic Api.egStoreApi "S1" 3600
    { id := 1, name := "Sam", rfidOriginal := "S1", rfidNormalized := "S1" } (by decide)

/-- C4: a badge that resolves to no enrolled employee makes the handler fail
with the distinct unknown-badge error and perform no writes: in the main
engine (whenever the lookup itself executes) the result is exactly
`(.error .unknownBadge, st)` with the store unchanged, the unknown-badge
error is distinct from every internal failure, and the api.go variant
likewise answers its 404 before any INSERT, leaving the store unchanged. -/
theorem C4_unknown_badge_rejection :
    (∀ (f : MainSrv.FailSpec) (st : MainSrv.Store) (uid : String) (now : Int),
        f.beginFail = false → f.lookupFail = false →
        MainSrv.findEmployee st uid = none →
        MainSrv.handleRFIDScan f st uid now = (.error .unknownBadge, st)) ∧
    (MainSrv.ScanError.unknownBadge ≠ MainSrv.ScanError.dbError ∧
     MainSrv.ScanError.unknownBadge ≠ MainSrv.ScanError.clockInFailed ∧
     MainSrv.ScanError.unknownBadge ≠ MainSrv.ScanError.recordLookupFailed ∧
     MainSrv.ScanError.unknownBadge ≠ MainSrv.ScanError.clockOutFailed ∧
     MainSrv.ScanError.unknownBadge ≠ MainSrv.ScanError.statusUpdateFailed) ∧
    (∀ (st : Api.Store) (uid : String) (now : Int),
        Api.findUser st uid = none →
        Api.handleRFIDScan st uid now = (.error .unknownCard, st)) := by
  refine ⟨?_, by decide, ?_⟩
  · intro f st uid now h1 h2 h3
    unfold MainSrv.handleRFIDScan
    rw [h1, h2, h3]
    simp
  · intro st uid now h
    unfold Api.handleRFIDScan
    rw [h]

/-- Witness for C4: scanning the unknown badge "ZZ99" on the concrete
stores of both variants. -/
theorem C4_unknown_badge_rejection_witness :
    MainSrv.handleRFIDScan MainSrv.noFail MainSrv.egStore "ZZ99" 400 =
      (.error .unknownBadge, MainSrv.egStore) ∧
    Api.handleRFIDScan Api.egStoreApi "ZZ99" 400 =
      (.error .unknownCard, Api.egStoreApi) :=
  ⟨C4_unknown_badge_rejection.1 MainSrv.noFail MainSrv.egStore "ZZ99" 400 rfl rfl (by decide),
   C4_unknown_badge_rejection.2.2 Api.egStoreApi "ZZ99" 400 (by decide)⟩

/-- C10: in the database.go variant every scan of a registered badge fails
to be recorded — the `clock_in_out` schema declares `rfid_uid_normalized`
NOT NULL with no default, the handler's INSERT omits that column, so the
INSERT is rejected and the handler returns the "Failed to record scan"
error, leaving the store unchanged. -/
theorem C10_insert_always_fails (st : Db.Store) (uid : String) (now : Int) (u : Db.User)
    (hfind : Db.findUserByOriginal st uid = some u) :
    Db.insertAllowed Db.clockInOutColumns Db.insertedColumns = false ∧
    Db.handleRFIDScan st uid now = (.error .recordFailed, st) := by
  refine ⟨by decide, ?_⟩
  unfold Db.handleRFIDScan
  rw [hfind]
  dsimp only
  rw [if_neg (by decide)]

/-- Witness for C10: Kim's registered badge at the concrete store. -/
theorem C10_insert_always_fails_witness :
    Db.insertAllowed Db.clockInOutColumns Db.insertedColumns = false ∧
    Db.handleRFIDScan Db.egStoreDb "K1" 50 = (.error .recordFailed, Db.egStoreDb) :=
  C10_insert_always_fails Db.egStoreDb "K1" 50
    { id := 1, name := "Kim", rfidOriginal := "K1", rfidNormalized := "K1" } (by decide)
